import Mathlib

/-!
Verification of the metrics instrumentation layer of the raiko proof-generation
host (`src/host/src/metrics.rs`).

The file shallowly embeds the metrics registry: the nine instruments declared in
the `lazy_static!` block, and the label-addressed update operations
(`inc_current_req`, `dec_current_req`, `inc_host_req_count`, `inc_host_error`,
`inc_guest_req_count`, `inc_guest_success`, `inc_guest_error`,
`observe_guest_time`, `observe_prepare_input_time`, `observe_total_time`).

Modelling conventions:
* Rust `u64` / `u128` inputs are `Nat` (the operations never do arithmetic on
  them other than stringification and the `as f64` cast, which is modelled
  bit-precisely by `roundF64`).
* The prometheus instruments are modelled by their documented contract: a
  counter vector is a finite association list from label-value keys to exact
  counts, a histogram vector maps keys to an exact (count, sum) pair, the
  gauge is an exact integer.  Series come into existence lazily, exactly as
  `MetricVec::with` does: series are created on first use.
* `MetricVec::with` panics when the provided label map does not match the
  declared label names; this fallible lookup is modelled by `labelKey`
  returning an `Option`, so every labelled update operation returns
  `Option Registry`, with `none` as the (unreachable) panic branch.
* Rust's `u64::to_string` and `bool::to_string` coincide with Lean's
  `toString` on `Nat` and `Bool` (decimal digits, "true"/"false").
-/

namespace RaikoMetrics

/-- Modelled from the spec: `ProofType` (defined in `crate::request`, which is
not among the given sources) is a closed enumeration of the supported proving
backends; its canonical display name is used as the `guest` label value.  The
spec's scenarios use the illustrative backend name "GuestA". -/
inductive ProofType where
  | guestA
  | guestB
deriving DecidableEq

/-- Modelled from the spec: the `Display`/`to_string` of a backend is its
canonical display name. -/
def ProofType.display : ProofType → String
  | .guestA => "GuestA"
  | .guestB => "GuestB"

/-- A time-series key inside one instrument: the label values, ordered by the
instrument's declared label names. -/
abbrev LabelKey := List String

/-- The state of one histogram series: the number of observations and their
exact sum.  (The observed values in this program are `u128` durations cast to
`f64`, hence natural numbers; the sum is kept exactly.) -/
structure HistSeries where
  count : Nat
  sum : Nat
deriving DecidableEq

/-- Append one observation to a histogram series. -/
def HistSeries.observe (h : HistSeries) (v : Nat) : HistSeries :=
  ⟨h.count + 1, h.sum + v⟩

/-- Look up the series for a label key inside one instrument. -/
def findSeries {α : Type} : List (LabelKey × α) → LabelKey → Option α
  | [], _ => none
  | (k', a) :: rest, k => if k = k' then some a else findSeries rest k

/-- Update (creating on first use) the series for a label key: the model of the
get-or-create child lookup performed by `MetricVec::with`. -/
def updateSeries {α : Type} (init : α) (f : α → α) :
    List (LabelKey × α) → LabelKey → List (LabelKey × α)
  | [], k => [(k, f init)]
  | (k', a) :: rest, k =>
    if k = k' then (k', f a) :: rest else (k', a) :: updateSeries init f rest k

/-- Extract, in declared order, the values of the declared label names from the
provided label map; `none` when a declared name is missing. -/
def lookupAll (provided : List (String × String)) : List String → Option (List String)
  | [] => some []
  | n :: rest =>
    match List.lookup n provided, lookupAll provided rest with
    | some v, some vs => some (v :: vs)
    | _, _ => none

/-- Model of the label validation done by prometheus `MetricVec::with`: the
provided label map must have exactly the declared label names; the key of the
addressed series is the list of values ordered by the declared names.  `none`
models the panic branch of `with`. -/
def labelKey (declared : List String) (provided : List (String × String)) :
    Option LabelKey :=
  if provided.length = declared.length then lookupAll provided declared else none

/-- Model of `vec.with(&labels).inc()` on an `IntCounterVec` declared with label names
`declared`. -/
def counterIncWith (declared : List String) (provided : List (String × String))
    (vec : List (LabelKey × Nat)) : Option (List (LabelKey × Nat)) :=
  (labelKey declared provided).map (fun k => updateSeries 0 (fun v => v + 1) vec k)

/-- Model of `vec.with(&labels).observe(v)` on a `HistogramVec` declared with label names
`declared`. -/
def histObserveWith (declared : List String) (provided : List (String × String))
    (v : Nat) (vec : List (LabelKey × HistSeries)) :
    Option (List (LabelKey × HistSeries)) :=
  (labelKey declared provided).map (fun k => updateSeries ⟨0, 0⟩ (fun h => h.observe v) vec k)

/-- The binary exponent used when rounding `n ≥ 2^53` to `f64` precision: the
unique `e` with `2^(52+e) ≤ n < 2^(53+e)`, computed by counting (for `u128`
inputs, `e ≤ 75` always holds, so the search range `0..75` suffices). -/
def f64exp (n : Nat) : Nat :=
  ((List.range 76).filter (fun e => Nat.ble (2 ^ (53 + e)) n)).length

/-- Bit-precise model of the Rust cast `time as f64` on a `u128` value: values
below `2^53` are exactly representable; larger values are rounded to 53
significant bits, to nearest, ties to even.  (Every `u128` is finite in `f64`,
so no overflow case arises.) -/
def roundF64 (n : Nat) : Nat :=
  if n < 2 ^ 53 then n
  else
    let e := f64exp n
    let q := n / 2 ^ e
    let r := n % 2 ^ e
    let half := 2 ^ (e - 1)
    if half < r ∨ (r = half ∧ q % 2 = 1) then (q + 1) * 2 ^ e else q * 2 ^ e

/-- The whole metrics registry: one field per instrument of the `lazy_static!`
block of `src/host/src/metrics.rs`, in source order. -/
structure Registry where
  host_request_count : List (LabelKey × Nat)
  host_error_count : List (LabelKey × Nat)
  guest_proof_request_count : List (LabelKey × Nat)
  guest_proof_success_count : List (LabelKey × Nat)
  guest_proof_error_count : List (LabelKey × Nat)
  guest_proof_time : List (LabelKey × HistSeries)
  prepare_input_time : List (LabelKey × HistSeries)
  total_time : List (LabelKey × HistSeries)
  concurrent_requests : Int
deriving DecidableEq

/-- The registry state right after `lazy_static!` initialization: no series
exist yet; the gauge starts at 0. -/
def initialRegistry : Registry :=
  ⟨[], [], [], [], [], [], [], [], 0⟩

/-- The static name / help / kind / label-name declarations made in the
`lazy_static!` block, in source order. -/
structure InstrumentDecl where
  name : String
  help : String
  kind : String
  label_names : List String
deriving DecidableEq

/-- The instrument catalog registered at process start (source order). -/
def catalog : List InstrumentDecl :=
  [⟨"host_request_count", "the number of requests sent to the host",
    "counter", ["block_id"]⟩,
   ⟨"host_error_count", "the number of failed requests produced by the host",
    "counter", ["block_id"]⟩,
   ⟨"guest_proof_request_count", "the number of requests sent to this guest",
    "counter", ["guest", "block_id"]⟩,
   ⟨"guest_proof_success_count", "the number of successful proofs generated by this guest",
    "counter", ["guest", "block_id"]⟩,
   ⟨"guest_proof_error_count", "the number of failed proofs generated by this guest",
    "counter", ["guest", "block_id"]⟩,
   ⟨"guest_proof_time_histogram", "time taken for proof generation by this guest",
    "histogram", ["guest", "block_id", "success"]⟩,
   ⟨"prepare_input_time_histogram", "time taken for prepare input",
    "histogram", ["block_id", "success"]⟩,
   ⟨"total_time_histogram", "time taken for the whole request",
    "histogram", ["block_id", "success"]⟩,
   ⟨"concurrent_requests", "number of requests currently being processed",
    "gauge", []⟩]

/-- Model of `pub fn inc_current_req()`: `CONCURRENT_REQUESTS.inc()`. -/
def inc_current_req (r : Registry) : Registry :=
  { r with concurrent_requests := r.concurrent_requests + 1 }

/-- Model of `pub fn dec_current_req()`: `CONCURRENT_REQUESTS.dec()`. -/
def dec_current_req (r : Registry) : Registry :=
  { r with concurrent_requests := r.concurrent_requests - 1 }

/-- Model of `pub fn inc_host_req_count(block_id: u64)`. -/
def inc_host_req_count (block_id : Nat) (r : Registry) : Option Registry :=
  let block_id := toString block_id
  let labels := [("block_id", block_id)]
  (counterIncWith ["block_id"] labels r.host_request_count).map
    (fun v => { r with host_request_count := v })

/-- Model of `pub fn inc_host_error(block_id: u64)`. -/
def inc_host_error (block_id : Nat) (r : Registry) : Option Registry :=
  let block_id := toString block_id
  let labels := [("block_id", block_id)]
  (counterIncWith ["block_id"] labels r.host_error_count).map
    (fun v => { r with host_error_count := v })

/-- Model of `pub fn inc_guest_req_count(guest: &ProofType, block_id: u64)`. -/
def inc_guest_req_count (guest : ProofType) (block_id : Nat) (r : Registry) :
    Option Registry :=
  let guest := guest.display
  let block_id := toString block_id
  let labels := [("guest", guest), ("block_id", block_id)]
  (counterIncWith ["guest", "block_id"] labels r.guest_proof_request_count).map
    (fun v => { r with guest_proof_request_count := v })

/-- Model of `pub fn inc_guest_success(guest: &ProofType, block_id: u64)`. -/
def inc_guest_success (guest : ProofType) (block_id : Nat) (r : Registry) :
    Option Registry :=
  let guest := guest.display
  let block_id := toString block_id
  let labels := [("guest", guest), ("block_id", block_id)]
  (counterIncWith ["guest", "block_id"] labels r.guest_proof_success_count).map
    (fun v => { r with guest_proof_success_count := v })

/-- Model of `pub fn inc_guest_error(guest: &ProofType, block_id: u64)`. -/
def inc_guest_error (guest : ProofType) (block_id : Nat) (r : Registry) :
    Option Registry :=
  let guest := guest.display
  let block_id := toString block_id
  let labels := [("guest", guest), ("block_id", block_id)]
  (counterIncWith ["guest", "block_id"] labels r.guest_proof_error_count).map
    (fun v => { r with guest_proof_error_count := v })

/-- Model of `pub fn observe_guest_time(guest: &ProofType, block_id: u64, time: u128,
success: bool)`: observes `time as f64`. -/
def observe_guest_time (guest : ProofType) (block_id : Nat) (time : Nat)
    (success : Bool) (r : Registry) : Option Registry :=
  let guest := guest.display
  let block_id := toString block_id
  let success := toString success
  let labels := [("guest", guest), ("block_id", block_id), ("success", success)]
  (histObserveWith ["guest", "block_id", "success"] labels (roundF64 time)
      r.guest_proof_time).map
    (fun v => { r with guest_proof_time := v })

/-- Model of `pub fn observe_prepare_input_time(block_id: u64, time: u128, success: bool)`. -/
def observe_prepare_input_time (block_id : Nat) (time : Nat) (success : Bool)
    (r : Registry) : Option Registry :=
  let block_id := toString block_id
  let success := toString success
  let labels := [("block_id", block_id), ("success", success)]
  (histObserveWith ["block_id", "success"] labels (roundF64 time)
      r.prepare_input_time).map
    (fun v => { r with prepare_input_time := v })

/-- Model of `pub fn observe_total_time(block_id: u64, time: u128, success: bool)`. -/
def observe_total_time (block_id : Nat) (time : Nat) (success : Bool)
    (r : Registry) : Option Registry :=
  let block_id := toString block_id
  let success := toString success
  let labels := [("block_id", block_id), ("success", success)]
  (histObserveWith ["block_id", "success"] labels (roundF64 time)
      r.total_time).map
    (fun v => { r with total_time := v })

/-- Run a fallible update operation `n` times in sequence. -/
def iterOp (f : Registry → Option Registry) : Nat → Registry → Option Registry
  | 0, r => some r
  | n + 1, r => (f r).bind (iterOp f n)

/-- Run one fallible update per list element, in order. -/
def seqOp (f : Nat → Registry → Option Registry) :
    List Nat → Registry → Option Registry
  | [], r => some r
  | t :: rest, r => (f t r).bind (seqOp f rest)

/-- One call to either gauge operation. -/
inductive GaugeOp where
  | up
  | down
deriving DecidableEq

/-- Apply a sequence of gauge operations (an arbitrary interleaving of
increments and decrements), left to right. -/
def applyGaugeOps (ops : List GaugeOp) (r : Registry) : Registry :=
  ops.foldl
    (fun s o => match o with
      | .up => inc_current_req s
      | .down => dec_current_req s) r

/-- The numeric value of a list of decimal digit characters, most significant
first. -/
def digitsValFrom (a : Nat) (cs : List Char) : Nat :=
  cs.foldl (fun x c => 10 * x + (c.toNat - 48)) a

/-- The numeric value denoted by a decimal digit string. -/
def digitsVal (cs : List Char) : Nat :=
  digitsValFrom 0 cs

/-! ### Helper lemmas about the series maps -/

theorem findSeries_updateSeries_self {α : Type} (init : α) (f : α → α)
    (vec : List (LabelKey × α)) (k : LabelKey) :
    findSeries (updateSeries init f vec k) k = some (f ((findSeries vec k).getD init)) := by
  induction vec with
  | nil => simp [findSeries, updateSeries]
  | cons p rest ih =>
    obtain ⟨k', a⟩ := p
    by_cases h : k = k'
    · subst h
      simp [findSeries, updateSeries]
    · simp [findSeries, updateSeries, h, ih]

theorem findSeries_updateSeries_ne {α : Type} (init : α) (f : α → α)
    (vec : List (LabelKey × α)) (k k₂ : LabelKey) (hne : k₂ ≠ k) :
    findSeries (updateSeries init f vec k) k₂ = findSeries vec k₂ := by
  induction vec with
  | nil => simp [findSeries, updateSeries, hne]
  | cons p rest ih =>
    obtain ⟨k', a⟩ := p
    by_cases h : k = k'
    · subst h
      simp [findSeries, updateSeries, hne]
    · by_cases h2 : k₂ = k'
      · subst h2
        simp [findSeries, updateSeries, h]
      · simp [findSeries, updateSeries, h, h2, ih]

/-! ### The gauge fold -/

theorem applyGaugeOps_gauge (ops : List GaugeOp) :
    ∀ r : Registry,
      (applyGaugeOps ops r).concurrent_requests =
        r.concurrent_requests + (ops.count GaugeOp.up : Int) -
          (ops.count GaugeOp.down : Int) := by
  induction ops with
  | nil => intro r; simp [applyGaugeOps]
  | cons o rest ih =>
    intro r
    cases o with
    | up =>
      have h := ih (inc_current_req r)
      simp only [applyGaugeOps, List.foldl_cons] at h ⊢
      rw [h]
      simp [inc_current_req, List.count_cons]
      omega
    | down =>
      have h := ih (dec_current_req r)
      simp only [applyGaugeOps, List.foldl_cons] at h ⊢
      rw [h]
      simp [dec_current_req, List.count_cons]
      omega

/-! ### Decimal stringification: `toString : Nat → String` produces the decimal
numeral, and is injective -/

theorem digitChar_toNat_sub : ∀ m : Nat, m < 10 → (Nat.digitChar m).toNat - 48 = m := by
  decide

theorem digitChar_isDigit : ∀ m : Nat, m < 10 → (Nat.digitChar m).isDigit = true := by
  decide

theorem toDigitsCore_acc (b : Nat) :
    ∀ (fuel n : Nat) (ds : List Char),
      Nat.toDigitsCore b fuel n ds = Nat.toDigitsCore b fuel n [] ++ ds := by
  intro fuel
  induction fuel with
  | zero => intro n ds; simp [Nat.toDigitsCore]
  | succ fuel ih =>
    intro n ds
    simp only [Nat.toDigitsCore]
    by_cases h : n / b = 0
    · simp [h]
    · simp only [if_neg h]
      rw [ih (n / b) (Nat.digitChar (n % b) :: ds), ih (n / b) [Nat.digitChar (n % b)]]
      simp

theorem digitsVal_toDigitsCore :
    ∀ fuel n : Nat, n < fuel → digitsVal (Nat.toDigitsCore 10 fuel n []) = n := by
  intro fuel
  induction fuel with
  | zero => intro n h; omega
  | succ fuel ih =>
    intro n h
    simp only [Nat.toDigitsCore]
    by_cases h0 : n / 10 = 0
    · simp only [if_pos h0]
      have hn : n < 10 := by omega
      have : n % 10 = n := Nat.mod_eq_of_lt hn
      simp [digitsVal, digitsValFrom, this, digitChar_toNat_sub n hn]
    · simp only [if_neg h0]
      rw [toDigitsCore_acc]
      have hsplit :
          digitsVal (Nat.toDigitsCore 10 fuel (n / 10) [] ++ [Nat.digitChar (n % 10)]) =
            10 * digitsVal (Nat.toDigitsCore 10 fuel (n / 10) []) +
              ((Nat.digitChar (n % 10)).toNat - 48) := by
        simp [digitsVal, digitsValFrom, List.foldl_append]
      rw [hsplit, ih (n / 10) (by omega),
        digitChar_toNat_sub (n % 10) (Nat.mod_lt n (by norm_num))]
      omega

theorem digitsVal_toString (n : Nat) : digitsVal (toString n).data = n :=
  digitsVal_toDigitsCore (n + 1) n (Nat.lt_succ_self n)

theorem toString_nat_inj {m n : Nat} (h : toString m = toString n) : m = n := by
  have h2 := congrArg (fun s => digitsVal s.data) h
  simpa [digitsVal_toString] using h2

theorem toDigitsCore_isDigit :
    ∀ (fuel n : Nat) (ds : List Char), (∀ c ∈ ds, c.isDigit = true) →
      ∀ c ∈ Nat.toDigitsCore 10 fuel n ds, c.isDigit = true := by
  intro fuel
  induction fuel with
  | zero => intro n ds hds; simpa [Nat.toDigitsCore] using hds
  | succ fuel ih =>
    intro n ds hds
    simp only [Nat.toDigitsCore]
    have hd : (Nat.digitChar (n % 10)).isDigit = true :=
      digitChar_isDigit (n % 10) (Nat.mod_lt n (by norm_num))
    have hds2 : ∀ c ∈ Nat.digitChar (n % 10) :: ds, c.isDigit = true := by
      intro c hc
      rcases List.mem_cons.mp hc with h | h
      · rw [h]; exact hd
      · exact hds c h
    by_cases h0 : n / 10 = 0
    · simp only [if_pos h0]
      exact hds2
    · simp only [if_neg h0]
      exact ih (n / 10) (Nat.digitChar (n % 10) :: ds) hds2

theorem toString_nat_isDigit (n : Nat) :
    ∀ c ∈ (toString n).data, c.isDigit = true :=
  toDigitsCore_isDigit (n + 1) n [] (by simp)

/-! ### Explicit success form of each labelled update operation: the label map
always matches the declared label names, so `with` never panics and the op
rewrites to an explicit series update -/

theorem inc_host_req_count_eq (b : Nat) (r : Registry) :
    inc_host_req_count b r =
      some { r with host_request_count :=
        updateSeries 0 (fun v => v + 1) r.host_request_count [toString b] } := rfl

theorem inc_host_error_eq (b : Nat) (r : Registry) :
    inc_host_error b r =
      some { r with host_error_count :=
        updateSeries 0 (fun v => v + 1) r.host_error_count [toString b] } := rfl

theorem inc_guest_req_count_eq (g : ProofType) (b : Nat) (r : Registry) :
    inc_guest_req_count g b r =
      some { r with guest_proof_request_count :=
        (updateSeries 0 (fun v => v + 1) r.guest_proof_request_count
          [g.display, toString b]) } := rfl

theorem inc_guest_success_eq (g : ProofType) (b : Nat) (r : Registry) :
    inc_guest_success g b r =
      some { r with guest_proof_success_count :=
        (updateSeries 0 (fun v => v + 1) r.guest_proof_success_count
          [g.display, toString b]) } := rfl

theorem inc_guest_error_eq (g : ProofType) (b : Nat) (r : Registry) :
    inc_guest_error g b r =
      some { r with guest_proof_error_count :=
        (updateSeries 0 (fun v => v + 1) r.guest_proof_error_count
          [g.display, toString b]) } := rfl

theorem observe_guest_time_eq (g : ProofType) (b t : Nat) (s : Bool) (r : Registry) :
    observe_guest_time g b t s r =
      some { r with guest_proof_time :=
        (updateSeries ⟨0, 0⟩ (fun h => h.observe (roundF64 t)) r.guest_proof_time
          [g.display, toString b, toString s]) } := rfl

theorem observe_prepare_input_time_eq (b t : Nat) (s : Bool) (r : Registry) :
    observe_prepare_input_time b t s r =
      some { r with prepare_input_time :=
        (updateSeries ⟨0, 0⟩ (fun h => h.observe (roundF64 t)) r.prepare_input_time
          [toString b, toString s]) } := rfl

theorem observe_total_time_eq (b t : Nat) (s : Bool) (r : Registry) :
    observe_total_time b t s r =
      some { r with total_time :=
        (updateSeries ⟨0, 0⟩ (fun h => h.observe (roundF64 t)) r.total_time
          [toString b, toString s]) } := rfl

/-! ### Iterating one counter increment, and sequencing histogram observations -/

theorem iterOp_counter (F : Registry → Option Registry)
    (get : Registry → List (LabelKey × Nat)) (k : LabelKey)
    (hF : ∀ r, ∃ r₁, F r = some r₁ ∧
      get r₁ = updateSeries 0 (fun v => v + 1) (get r) k) :
    ∀ (N : Nat) (r : Registry), ∃ r', iterOp F (N + 1) r = some r' ∧
      findSeries (get r') k = some ((findSeries (get r) k).getD 0 + (N + 1)) := by
  intro N
  induction N with
  | zero =>
    intro r
    obtain ⟨r₁, hFr, hget⟩ := hF r
    refine ⟨r₁, by simp [iterOp, hFr], ?_⟩
    rw [hget, findSeries_updateSeries_self]
  | succ N ih =>
    intro r
    obtain ⟨r₁, hFr, hget⟩ := hF r
    obtain ⟨r', hrun, hval⟩ := ih r₁
    refine ⟨r', ?_, ?_⟩
    · show iterOp F (N + 1 + 1) r = some r'
      simpa [iterOp, hFr] using hrun
    · have h1 : findSeries (get r₁) k = some ((findSeries (get r) k).getD 0 + 1) := by
        rw [hget, findSeries_updateSeries_self]
      rw [hval, h1]
      simp only [Option.getD_some, Option.some.injEq]
      omega

theorem seqOp_hist (F : Nat → Registry → Option Registry)
    (get : Registry → List (LabelKey × HistSeries)) (k : LabelKey)
    (hF : ∀ t r, ∃ r₁, F t r = some r₁ ∧
      get r₁ = updateSeries ⟨0, 0⟩ (fun h => h.observe (roundF64 t)) (get r) k) :
    ∀ (rest : List Nat) (t : Nat) (r : Registry),
      ∃ r', seqOp F (t :: rest) r = some r' ∧
        findSeries (get r') k =
          some ⟨((findSeries (get r) k).getD ⟨0, 0⟩).count + rest.length + 1,
            ((findSeries (get r) k).getD ⟨0, 0⟩).sum + roundF64 t +
              (rest.map roundF64).sum⟩ := by
  intro rest
  induction rest with
  | nil =>
    intro t r
    obtain ⟨r₁, hFr, hget⟩ := hF t r
    refine ⟨r₁, by simp [seqOp, hFr], ?_⟩
    rw [hget, findSeries_updateSeries_self]
    simp [HistSeries.observe]
  | cons t₂ rest ih =>
    intro t r
    obtain ⟨r₁, hFr, hget⟩ := hF t r
    obtain ⟨r', hrun, hval⟩ := ih t₂ r₁
    refine ⟨r', ?_, ?_⟩
    · show seqOp F (t :: t₂ :: rest) r = some r'
      simpa [seqOp, hFr] using hrun
    · have h1 : findSeries (get r₁) k =
          some (((findSeries (get r) k).getD ⟨0, 0⟩).observe (roundF64 t)) := by
        rw [hget, findSeries_updateSeries_self]
      rw [hval, h1]
      simp only [Option.getD_some, Option.some.injEq, HistSeries.observe,
        List.length_cons, List.map_cons, List.sum_cons, HistSeries.mk.injEq]
      omega

/-! ### The cast `time as f64` is exact up to `2^53` -/

theorem roundF64_exact {t : Nat} (ht : t ≤ 2 ^ 53) : roundF64 t = t := by
  rcases Nat.lt_or_ge t (2 ^ 53) with h1 | h1
  · unfold roundF64
    rw [if_pos h1]
  · have h2 : t = 2 ^ 53 := Nat.le_antisymm ht h1
    subst h2
    decide

/-! ## The claims -/

/-- C1: for every label tuple (a block id for the host counters, a
(guest, block id) pair for the guest counters) and every `N ≥ 1`, a sequence of
`N` calls to the counter's increment operation with that same label tuple,
starting from the initial registry, leaves the exported value of exactly that
series equal to `N`. -/
theorem counter_increment_exactness (g : ProofType) (b : Nat) (N : Nat) (hN : 0 < N) :
    (∃ r, iterOp (inc_host_req_count b) N initialRegistry = some r ∧
       findSeries r.host_request_count [toString b] = some N) ∧
    (∃ r, iterOp (inc_host_error b) N initialRegistry = some r ∧
       findSeries r.host_error_count [toString b] = some N) ∧
    (∃ r, iterOp (inc_guest_req_count g b) N initialRegistry = some r ∧
       findSeries r.guest_proof_request_count [g.display, toString b] = some N) ∧
    (∃ r, iterOp (inc_guest_success g b) N initialRegistry = some r ∧
       findSeries r.guest_proof_success_count [g.display, toString b] = some N) ∧
    (∃ r, iterOp (inc_guest_error g b) N initialRegistry = some r ∧
       findSeries r.guest_proof_error_count [g.display, toString b] = some N) := by
  obtain ⟨M, rfl⟩ : ∃ M, N = M + 1 := ⟨N - 1, by omega⟩
  refine ⟨?_, ?_, ?_, ?_, ?_⟩
  · obtain ⟨r', h1, h2⟩ := iterOp_counter (inc_host_req_count b)
      (fun r => r.host_request_count) [toString b]
      (fun r => ⟨_, inc_host_req_count_eq b r, rfl⟩) M initialRegistry
    exact ⟨r', h1, by simpa [initialRegistry, findSeries] using h2⟩
  · obtain ⟨r', h1, h2⟩ := iterOp_counter (inc_host_error b)
      (fun r => r.host_error_count) [toString b]
      (fun r => ⟨_, inc_host_error_eq b r, rfl⟩) M initialRegistry
    exact ⟨r', h1, by simpa [initialRegistry, findSeries] using h2⟩
  · obtain ⟨r', h1, h2⟩ := iterOp_counter (inc_guest_req_count g b)
      (fun r => r.guest_proof_request_count) [g.display, toString b]
      (fun r => ⟨_, inc_guest_req_count_eq g b r, rfl⟩) M initialRegistry
    exact ⟨r', h1, by simpa [initialRegistry, findSeries] using h2⟩
  · obtain ⟨r', h1, h2⟩ := iterOp_counter (inc_guest_success g b)
      (fun r => r.guest_proof_success_count) [g.display, toString b]
      (fun r => ⟨_, inc_guest_success_eq g b r, rfl⟩) M initialRegistry
    exact ⟨r', h1, by simpa [initialRegistry, findSeries] using h2⟩
  · obtain ⟨r', h1, h2⟩ := iterOp_counter (inc_guest_error g b)
      (fun r => r.guest_proof_error_count) [g.display, toString b]
      (fun r => ⟨_, inc_guest_error_eq g b r, rfl⟩) M initialRegistry
    exact ⟨r', h1, by simpa [initialRegistry, findSeries] using h2⟩

/-- Witness for C1: three calls to `inc_host_req_count 42` leave the
`host_request_count` series for block id 42 at exactly 3. -/
theorem counter_increment_exactness_witness :
    ∃ r, iterOp (inc_host_req_count 42) 3 initialRegistry = some r ∧
      findSeries r.host_request_count [toString (42 : Nat)] = some 3 :=
  (counter_increment_exactness ProofType.guestA 42 3 (by decide)).1

/-- C2 counterexample: the registered instrument names are not the nine names
listed in the claim — the three histograms carry a `_histogram` suffix, so
`guest_proof_time` is not a registered name while `guest_proof_time_histogram`
is. -/
theorem histogram_names_not_as_claimed :
    catalog.map (fun d => d.name) ≠
      ["host_request_count", "host_error_count", "guest_proof_request_count",
       "guest_proof_success_count", "guest_proof_error_count", "guest_proof_time",
       "prepare_input_time", "total_time", "concurrent_requests"] ∧
    "guest_proof_time" ∉ catalog.map (fun d => d.name) ∧
    "guest_proof_time_histogram" ∈ catalog.map (fun d => d.name) := by
  refine ⟨by decide, by decide, by decide⟩

/-- C2 (amended): the instruments registered at process start carry, in source
order, the names `host_request_count`, `host_error_count`,
`guest_proof_request_count`, `guest_proof_success_count`,
`guest_proof_error_count`, `guest_proof_time_histogram`,
`prepare_input_time_histogram`, `total_time_histogram`, and
`concurrent_requests`; the first five are counters, the next three are
histograms, the last is a gauge. -/
theorem registered_instrument_names :
    catalog.map (fun d => d.name) =
      ["host_request_count", "host_error_count", "guest_proof_request_count",
       "guest_proof_success_count", "guest_proof_error_count",
       "guest_proof_time_histogram", "prepare_input_time_histogram",
       "total_time_histogram", "concurrent_requests"] ∧
    catalog.map (fun d => d.kind) =
      ["counter", "counter", "counter", "counter", "counter",
       "histogram", "histogram", "histogram", "gauge"] :=
  ⟨rfl, rfl⟩

/-- C3: starting from any registry whose `concurrent_requests` gauge reads `g`,
any interleaving consisting of `M` calls to `inc_current_req` and `M` calls to
`dec_current_req` leaves the gauge back at `g`, and `M` increments with zero
decrements leave it at `g + M`. -/
theorem gauge_net_zero_and_plus (gv : Int) (M : Nat) (ops : List GaugeOp)
    (r : Registry) (hg : r.concurrent_requests = gv) :
    ((ops.count GaugeOp.up = M ∧ ops.count GaugeOp.down = M) →
      (applyGaugeOps ops r).concurrent_requests = gv) ∧
    (applyGaugeOps (List.replicate M GaugeOp.up) r).concurrent_requests = gv + M := by
  constructor
  · rintro ⟨h1, h2⟩
    rw [applyGaugeOps_gauge, hg, h1, h2]
    omega
  · rw [applyGaugeOps_gauge, hg]
    simp [List.count_replicate]

/-- Witness for C3: from the initial registry (gauge 0), the interleaving
inc, dec, inc, dec returns the gauge to 0, and two bare increments read 2. -/
theorem gauge_net_zero_and_plus_witness :
    (applyGaugeOps [GaugeOp.up, GaugeOp.down, GaugeOp.up, GaugeOp.down]
        initialRegistry).concurrent_requests = 0 ∧
    (applyGaugeOps (List.replicate 2 GaugeOp.up)
        initialRegistry).concurrent_requests = 0 + 2 :=
  ⟨(gauge_net_zero_and_plus 0 2 [GaugeOp.up, GaugeOp.down, GaugeOp.up, GaugeOp.down]
      initialRegistry rfl).1 (by decide),
   (gauge_net_zero_and_plus 0 2 [GaugeOp.up, GaugeOp.down, GaugeOp.up, GaugeOp.down]
      initialRegistry rfl).2⟩

/-- C4: for every label tuple and every non-empty sequence of durations
recorded into a histogram under that tuple (the recorded values being the
`as f64` images of the inputs), the exported count of that series equals the
number of observations and the exported sum equals their exact sum — shown for
all three histogram operations, starting from the initial registry. -/
theorem histogram_count_sum_exact (g : ProofType) (b : Nat) (s : Bool)
    (ts : List Nat) (h : ts ≠ []) :
    (∃ r, seqOp (fun t => observe_guest_time g b t s) ts initialRegistry = some r ∧
       findSeries r.guest_proof_time [g.display, toString b, toString s] =
         some ⟨ts.length, (ts.map roundF64).sum⟩) ∧
    (∃ r, seqOp (fun t => observe_prepare_input_time b t s) ts initialRegistry = some r ∧
       findSeries r.prepare_input_time [toString b, toString s] =
         some ⟨ts.length, (ts.map roundF64).sum⟩) ∧
    (∃ r, seqOp (fun t => observe_total_time b t s) ts initialRegistry = some r ∧
       findSeries r.total_time [toString b, toString s] =
         some ⟨ts.length, (ts.map roundF64).sum⟩) := by
  obtain ⟨t, rest, rfl⟩ : ∃ t rest, ts = t :: rest := by
    cases ts with
    | nil => exact absurd rfl h
    | cons t rest => exact ⟨t, rest, rfl⟩
  refine ⟨?_, ?_, ?_⟩
  · obtain ⟨r', h1, h2⟩ := seqOp_hist (fun t => observe_guest_time g b t s)
      (fun r => r.guest_proof_time) [g.display, toString b, toString s]
      (fun t r => ⟨_, observe_guest_time_eq g b t s r, rfl⟩) rest t initialRegistry
    refine ⟨r', h1, ?_⟩
    rw [h2]
    simp [initialRegistry, findSeries, HistSeries.mk.injEq]
  · obtain ⟨r', h1, h2⟩ := seqOp_hist (fun t => observe_prepare_input_time b t s)
      (fun r => r.prepare_input_time) [toString b, toString s]
      (fun t r => ⟨_, observe_prepare_input_time_eq b t s r, rfl⟩) rest t initialRegistry
    refine ⟨r', h1, ?_⟩
    rw [h2]
    simp [initialRegistry, findSeries, HistSeries.mk.injEq]
  · obtain ⟨r', h1, h2⟩ := seqOp_hist (fun t => observe_total_time b t s)
      (fun r => r.total_time) [toString b, toString s]
      (fun t r => ⟨_, observe_total_time_eq b t s r, rfl⟩) rest t initialRegistry
    refine ⟨r', h1, ?_⟩
    rw [h2]
    simp [initialRegistry, findSeries, HistSeries.mk.injEq]

/-- Witness for C4: one observation of 1500 under (GuestA, 7, true) leaves the
`guest_proof_time_histogram` series with count 1 and sum 1500. -/
theorem histogram_count_sum_exact_witness :
    ∃ r, seqOp (fun t => observe_guest_time ProofType.guestA 7 t true) [1500]
        initialRegistry = some r ∧
      findSeries r.guest_proof_time
        [ProofType.display ProofType.guestA, toString (7 : Nat), toString true] =
        some ⟨1, 1500⟩ :=
  (histogram_count_sum_exact ProofType.guestA 7 true [1500] (by decide)).1

/-- C5: update calls that differ in the block-id label dimension address
independent series — an increment for block id `b1` never changes the series of
a different block id `b2` (shown for the host and the guest request counters);
and the spec scenario: after one `inc_host_req_count 42` and zero
`inc_host_error 42`, `host_request_count{block_id="42"}` is 1 and no
`host_error_count` series exists for block id 42. -/
theorem label_isolation (b1 b2 : Nat) (hne : b1 ≠ b2) :
    (∀ r r', inc_host_req_count b1 r = some r' →
       findSeries r'.host_request_count [toString b2] =
         findSeries r.host_request_count [toString b2]) ∧
    (∀ g r r', inc_guest_req_count g b1 r = some r' →
       findSeries r'.guest_proof_request_count [ProofType.display g, toString b2] =
         findSeries r.guest_proof_request_count [ProofType.display g, toString b2]) ∧
    (∃ r', inc_host_req_count 42 initialRegistry = some r' ∧
       findSeries r'.host_request_count [toString (42 : Nat)] = some 1 ∧
       findSeries r'.host_error_count [toString (42 : Nat)] = none) := by
  have hs : toString b2 ≠ toString b1 := fun hh => hne (toString_nat_inj hh).symm
  refine ⟨?_, ?_, ?_⟩
  · intro r r' h
    rw [inc_host_req_count_eq] at h
    obtain rfl := Option.some.inj h
    exact findSeries_updateSeries_ne _ _ _ _ _ (by simpa using hs)
  · intro g r r' h
    rw [inc_guest_req_count_eq] at h
    obtain rfl := Option.some.inj h
    exact findSeries_updateSeries_ne _ _ _ _ _ (by simpa using hs)
  · exact ⟨_, rfl, rfl, rfl⟩

/-- Witness for C5: block ids 1 and 2 differ, and the concrete scenario for
block id 42 holds. -/
theorem label_isolation_witness :
    ∃ r', inc_host_req_count 42 initialRegistry = some r' ∧
      findSeries r'.host_request_count [toString (42 : Nat)] = some 1 ∧
      findSeries r'.host_error_count [toString (42 : Nat)] = none :=
  (label_isolation 1 2 (by decide)).2.2

/-- C6: label values are derived by the single canonical stringification — a
block id maps to the decimal numeral of its value (every character a digit, the
digit string denoting exactly the input, and the map injective so equal typed
inputs and only they address the same series), a boolean success flag maps to
"true"/"false", a backend maps to its canonical display name, and the histogram
operations build their label maps from exactly these functions. -/
theorem canonical_stringification :
    (∀ n : Nat, (∀ c ∈ (toString n).data, c.isDigit = true) ∧
       digitsVal (toString n).data = n) ∧
    (∀ m n : Nat, toString m = toString n → m = n) ∧
    (toString true = "true" ∧ toString false = "false") ∧
    (ProofType.display ProofType.guestA = "GuestA" ∧
     ProofType.display ProofType.guestB = "GuestB") ∧
    (∀ g b t s r, observe_guest_time g b t s r =
       (histObserveWith ["guest", "block_id", "success"]
          [("guest", ProofType.display g), ("block_id", toString b),
           ("success", toString s)]
          (roundF64 t) r.guest_proof_time).map
         (fun v => { r with guest_proof_time := v })) ∧
    (∀ b t s r, observe_prepare_input_time b t s r =
       (histObserveWith ["block_id", "success"]
          [("block_id", toString b), ("success", toString s)]
          (roundF64 t) r.prepare_input_time).map
         (fun v => { r with prepare_input_time := v })) :=
  ⟨fun n => ⟨toString_nat_isDigit n, digitsVal_toString n⟩,
   fun _ _ h => toString_nat_inj h, ⟨rfl, rfl⟩, ⟨rfl, rfl⟩,
   fun _ _ _ _ _ => rfl, fun _ _ _ _ => rfl⟩

/-- Witness for C6: the decimal numeral of 42 denotes 42, and injectivity
applied at equal concrete strings. -/
theorem canonical_stringification_witness :
    digitsVal (toString (42 : Nat)).data = 42 ∧ (5 : Nat) = 5 :=
  ⟨(canonical_stringification.1 42).2, canonical_stringification.2.1 5 5 rfl⟩

/-- C7 counterexample: at input `2^53 + 1` (a representable `u128`), the value
appended by `observe_guest_time` is `2^53`, not the value passed — the source's
`time as f64` cast rounds away the low bit, so the claim fails as stated. -/
theorem cast_rounds_large_duration :
    (∃ r', observe_guest_time ProofType.guestA 1 (2 ^ 53 + 1) true initialRegistry =
        some r' ∧
      findSeries r'.guest_proof_time
        [ProofType.display ProofType.guestA, toString (1 : Nat), toString true] =
        some ⟨1, 2 ^ 53⟩) ∧
    (2 ^ 53 : Nat) ≠ 2 ^ 53 + 1 :=
  ⟨⟨_, rfl, rfl⟩, by omega⟩

/-- C7 (amended): for every duration value `t ≤ 2^53` (in particular every
value exactly representable in `f64`), the numeric value appended to the
histogram series by `observe_guest_time` (and the prepare-input and total-time
analogues) equals exactly the value passed by the caller — no unit conversion
or other alteration; inputs above `2^53` are rounded by the `as f64` cast. -/
theorem duration_observed_exact (t : Nat) (ht : t ≤ 2 ^ 53) (g : ProofType)
    (b : Nat) (s : Bool) (r : Registry) :
    (∃ r', observe_guest_time g b t s r = some r' ∧
       findSeries r'.guest_proof_time [g.display, toString b, toString s] =
         some (((findSeries r.guest_proof_time
           [g.display, toString b, toString s]).getD ⟨0, 0⟩).observe t)) ∧
    (∃ r', observe_prepare_input_time b t s r = some r' ∧
       findSeries r'.prepare_input_time [toString b, toString s] =
         some (((findSeries r.prepare_input_time
           [toString b, toString s]).getD ⟨0, 0⟩).observe t)) ∧
    (∃ r', observe_total_time b t s r = some r' ∧
       findSeries r'.total_time [toString b, toString s] =
         some (((findSeries r.total_time
           [toString b, toString s]).getD ⟨0, 0⟩).observe t)) := by
  refine ⟨⟨_, observe_guest_time_eq g b t s r, ?_⟩,
    ⟨_, observe_prepare_input_time_eq b t s r, ?_⟩,
    ⟨_, observe_total_time_eq b t s r, ?_⟩⟩ <;>
  · show findSeries (updateSeries _ _ _ _) _ = _
    rw [findSeries_updateSeries_self, roundF64_exact ht]

/-- Witness for C7 (amended): a 1500-unit duration is appended exactly. -/
theorem duration_observed_exact_witness :
    ∃ r', observe_guest_time ProofType.guestA 7 1500 true initialRegistry = some r' ∧
      findSeries r'.guest_proof_time
        [ProofType.display ProofType.guestA, toString (7 : Nat), toString true] =
        some (((findSeries initialRegistry.guest_proof_time
          [ProofType.display ProofType.guestA, toString (7 : Nat),
           toString true]).getD ⟨0, 0⟩).observe 1500) :=
  (duration_observed_exact 1500 (by norm_num) ProofType.guestA 7 true
    initialRegistry).1

/-- C8: every per-call update operation is infallible — for every input and
every registry state, the label map built by the operation matches the
declared label names, so the `with` lookup (the only fallible step, whose
failure would panic) succeeds; and registration itself succeeds at startup
because the nine declared instrument names are pairwise distinct. -/
theorem update_ops_infallible (g : ProofType) (b t : Nat) (s : Bool) (r : Registry) :
    (catalog.map (fun d => d.name)).Nodup ∧
    (inc_host_req_count b r).isSome = true ∧
    (inc_host_error b r).isSome = true ∧
    (inc_guest_req_count g b r).isSome = true ∧
    (inc_guest_success g b r).isSome = true ∧
    (inc_guest_error g b r).isSome = true ∧
    (observe_guest_time g b t s r).isSome = true ∧
    (observe_prepare_input_time b t s r).isSome = true ∧
    (observe_total_time b t s r).isSome = true :=
  ⟨by decide, rfl, rfl, rfl, rfl, rfl, rfl, rfl, rfl⟩

/-- C10: every update operation has a strict frame — it changes at most its own
instrument's field of the registry (captured by the record-update equation
leaving all other fields as in `r`), and within that instrument at most the
single series addressed by the derived label key. -/
theorem update_ops_frame (g : ProofType) (b t : Nat) (s : Bool) (r : Registry) :
    (inc_current_req r =
      { r with concurrent_requests := (inc_current_req r).concurrent_requests }) ∧
    (dec_current_req r =
      { r with concurrent_requests := (dec_current_req r).concurrent_requests }) ∧
    (∀ r', inc_host_req_count b r = some r' →
      r' = { r with host_request_count := r'.host_request_count } ∧
      ∀ k, k ≠ [toString b] →
        findSeries r'.host_request_count k = findSeries r.host_request_count k) ∧
    (∀ r', inc_host_error b r = some r' →
      r' = { r with host_error_count := r'.host_error_count } ∧
      ∀ k, k ≠ [toString b] →
        findSeries r'.host_error_count k = findSeries r.host_error_count k) ∧
    (∀ r', inc_guest_req_count g b r = some r' →
      r' = { r with guest_proof_request_count := r'.guest_proof_request_count } ∧
      ∀ k, k ≠ [g.display, toString b] →
        findSeries r'.guest_proof_request_count k =
          findSeries r.guest_proof_request_count k) ∧
    (∀ r', inc_guest_success g b r = some r' →
      r' = { r with guest_proof_success_count := r'.guest_proof_success_count } ∧
      ∀ k, k ≠ [g.display, toString b] →
        findSeries r'.guest_proof_success_count k =
          findSeries r.guest_proof_success_count k) ∧
    (∀ r', inc_guest_error g b r = some r' →
      r' = { r with guest_proof_error_count := r'.guest_proof_error_count } ∧
      ∀ k, k ≠ [g.display, toString b] →
        findSeries r'.guest_proof_error_count k =
          findSeries r.guest_proof_error_count k) ∧
    (∀ r', observe_guest_time g b t s r = some r' →
      r' = { r with guest_proof_time := r'.guest_proof_time } ∧
      ∀ k, k ≠ [g.display, toString b, toString s] →
        findSeries r'.guest_proof_time k = findSeries r.guest_proof_time k) ∧
    (∀ r', observe_prepare_input_time b t s r = some r' →
      r' = { r with prepare_input_time := r'.prepare_input_time } ∧
      ∀ k, k ≠ [toString b, toString s] →
        findSeries r'.prepare_input_time k = findSeries r.prepare_input_time k) ∧
    (∀ r', observe_total_time b t s r = some r' →
      r' = { r with total_time := r'.total_time } ∧
      ∀ k, k ≠ [toString b, toString s] →
        findSeries r'.total_time k = findSeries r.total_time k) := by
  refine ⟨rfl, rfl, ?_, ?_, ?_, ?_, ?_, ?_, ?_, ?_⟩
  · intro r' h
    rw [inc_host_req_count_eq] at h
    obtain rfl := Option.some.inj h
    exact ⟨rfl, fun k hk => findSeries_updateSeries_ne _ _ _ _ _ hk⟩
  · intro r' h
    rw [inc_host_error_eq] at h
    obtain rfl := Option.some.inj h
    exact ⟨rfl, fun k hk => findSeries_updateSeries_ne _ _ _ _ _ hk⟩
  · intro r' h
    rw [inc_guest_req_count_eq] at h
    obtain rfl := Option.some.inj h
    exact ⟨rfl, fun k hk => findSeries_updateSeries_ne _ _ _ _ _ hk⟩
  · intro r' h
    rw [inc_guest_success_eq] at h
    obtain rfl := Option.some.inj h
    exact ⟨rfl, fun k hk => findSeries_updateSeries_ne _ _ _ _ _ hk⟩
  · intro r' h
    rw [inc_guest_error_eq] at h
    obtain rfl := Option.some.inj h
    exact ⟨rfl, fun k hk => findSeries_updateSeries_ne _ _ _ _ _ hk⟩
  · intro r' h
    rw [observe_guest_time_eq] at h
    obtain rfl := Option.some.inj h
    exact ⟨rfl, fun k hk => findSeries_updateSeries_ne _ _ _ _ _ hk⟩
  · intro r' h
    rw [observe_prepare_input_time_eq] at h
    obtain rfl := Option.some.inj h
    exact ⟨rfl, fun k hk => findSeries_updateSeries_ne _ _ _ _ _ hk⟩
  · intro r' h
    rw [observe_total_time_eq] at h
    obtain rfl := Option.some.inj h
    exact ⟨rfl, fun k hk => findSeries_updateSeries_ne _ _ _ _ _ hk⟩

/-- Witness for C10: one `inc_host_req_count 1` from the initial registry
leaves the series of the different block id 2 untouched. -/
theorem update_ops_frame_witness :
    findSeries ({ initialRegistry with
        host_request_count := [([toString (1 : Nat)], 1)] } : Registry).host_request_count
      [toString (2 : Nat)] =
      findSeries initialRegistry.host_request_count [toString (2 : Nat)] :=
  ((update_ops_frame ProofType.guestA 1 1 true initialRegistry).2.2.1 _ rfl).2
    [toString (2 : Nat)] (by decide)

end RaikoMetrics
